import Mathlib

set_option maxHeartbeats 1000000

set_option maxRecDepth 16384

/-!
Verification development for the Full-Stack-AI-Meme-Generator repository
(src/AIMemeGenerator.py): the response-parsing and image-provider layer.

Strings are embedded as `List Char`; raw image payloads as `List Nat`
(byte values). The source file in src/ is truncated after line 95, so the
Response Parser and the image-provider dispatch are modelled from the
specification (each such definition carries a doc comment starting
"Modelled from the spec:"); the exception classes, the credentials tuple,
the argument defaults and the prompt text are taken from the source.
-/

instance {ε α : Type} [DecidableEq ε] [DecidableEq α] : DecidableEq (Except ε α)
  | .error a, .error b =>
    if h : a = b then .isTrue (by rw [h]) else .isFalse (by simp [h])
  | .error _, .ok _ => .isFalse (by simp)
  | .ok _, .error _ => .isFalse (by simp)
  | .ok a, .ok b =>
    if h : a = b then .isTrue (by rw [h]) else .isFalse (by simp [h])

/-- Whitespace predicate used when trimming captured values. -/
def isSpaceChar (c : Char) : Bool :=
  c = ' ' || c = '\t' || c = '\r' || c = '\n'

/-- Quotation-mark predicate used when stripping captured values. -/
def isQuoteChar (c : Char) : Bool := c = '"'

/-- Drop characters satisfying `p` from both ends of a character list. -/
def dropEnds (p : Char → Bool) (s : List Char) : List Char :=
  ((s.dropWhile p).reverse.dropWhile p).reverse

/-- Trim leading and trailing whitespace. -/
def trimSpaces (s : List Char) : List Char := dropEnds isSpaceChar s

/-- Strip leading and trailing quotation marks. -/
def stripQuotes (s : List Char) : List Char := dropEnds isQuoteChar s

/-- Cleanup applied to a captured label value: trim whitespace, then strip
surrounding quotation marks. -/
def cleanValue (s : List Char) : List Char := stripQuotes (trimSpaces s)

/-- Lower-case a character list, for case-insensitive label matching. -/
def lowerChars (s : List Char) : List Char := s.map Char.toLower

/-- Case-insensitive test that `s` starts with the label `lab`. -/
def startsWithCI (s lab : List Char) : Bool :=
  lowerChars (s.take lab.length) == lowerChars lab

/-- Split a character list into lines at newline characters. -/
def splitLines : List Char → List (List Char)
  | [] => [[]]
  | c :: cs =>
    match splitLines cs with
    | [] => [[]]
    | l :: ls => if c = '\n' then [] :: l :: ls else (c :: l) :: ls

/-- Label announcing the meme caption, shared between the system prompt and
the parser (literal from the source prompt text). -/
def meme_text_label : List Char := "Meme Text: ".data

/-- Label announcing the image prompt, shared between the system prompt and
the parser (literal from the source prompt text). -/
def image_prompt_label : List Char := "Image Prompt: ".data

/-- Pair extracted from one chat reply (the spec's Meme Result). -/
structure MemeResult where
  caption : List Char
  image_prompt : List Char
deriving Repr, DecidableEq

/-- Failure of the Response Parser: a `ResponseFormatError` carrying the raw
reply for diagnostics. -/
inductive ParseFailure where
  | responseFormatError (raw_reply : List Char)
deriving Repr, DecidableEq

/-- Scan the lines for the first one whose trimmed form starts with the
label (case-insensitively) and return its cleaned-up value. -/
def extract_label (lab : List Char) : List (List Char) → Option (List Char)
  | [] => none
  | l :: rest =>
    if startsWithCI (trimSpaces l) lab then
      some (cleanValue ((trimSpaces l).drop lab.length))
    else extract_label lab rest

/-- Modelled from the spec: the Response Parser `parse(raw_reply)` is absent
from the truncated source. Per the spec it locates each label by
case-insensitive prefix match on any line, tolerating surrounding
whitespace, strips the label and surrounding whitespace/quotation marks
from the captured value, uses the first occurrence of a repeated label,
and fails with `ResponseFormatError` carrying the raw reply when either
label is absent or a captured value is empty (a Meme Result is well-formed
only if both fields are non-empty). -/
def parse (raw_reply : List Char) : Except ParseFailure MemeResult :=
  match extract_label meme_text_label (splitLines raw_reply),
        extract_label image_prompt_label (splitLines raw_reply) with
  | some c, some p =>
    if c.isEmpty || p.isEmpty then .error (.responseFormatError raw_reply)
    else .ok ⟨c, p⟩
  | _, _ => .error (.responseFormatError raw_reply)

/-- Fixed formatting instructions of the system prompt (literal from the
source, lines 87-93). -/
def format_instructions : List Char :=
  ("You are a meme generator with the following formatting instructions. " ++
   "Each meme will consist of text that will appear at the top, and an image to go along with it. " ++
   "The user will send you a message with a general theme or concept on which you will base the meme. " ++
   "You must respond only in the format as described next, because your response will be parsed. " ++
   "The first line of your response should be: 'Meme Text: ' followed by the meme text. " ++
   "The second line of your response should be: 'Image Prompt: ' followed by the image prompt text.").data

/-- System prompt builder. The source shows the result starts with
`format_instructions` followed by " Next are" (line 94) and is then
truncated. Modelled from the spec: the remainder appends the basic and
image-special instruction overrides. -/
def construct_system_prompt (basic_instructions image_special_instructions : List Char) : List Char :=
  format_instructions ++ " Next are the basic instructions for the memes: ".data ++
    basic_instructions ++ " Next are the special instructions for the image prompt: ".data ++
    image_special_instructions

/-- Credentials bundle, from the source namedtuple `ApiKeysTupleClass`
(line 52); absence of a key is an explicit not-present state. -/
structure ApiKeysTupleClass where
  openai_key : Option String
  clipdrop_key : Option String
  stability_key : Option String
deriving Repr, DecidableEq

/-- Events of a diffusion-provider streaming session: an artifact carrying
an encoded image payload, a content-filter rejection, or anything else. -/
inductive GenerationEvent where
  | artifact (binary : List Nat)
  | filtered
  | other
deriving Repr, DecidableEq

/-- Outcome of the text-to-image hosted API's single synchronous request
(success carries a base64-embedded image payload). -/
inductive OpenAIOutcome where
  | success (b64 : List Nat)
  | authFailure
  | quotaFailure
  | requestFailure
deriving Repr, DecidableEq

/-- Outcome of the simple image-from-text provider's single synchronous
request: a 2xx body of raw bytes, or a non-2xx status with its body. -/
inductive ClipdropOutcome where
  | ok (body : List Nat)
  | httpFailure (status : Nat) (body : String)
deriving Repr, DecidableEq

/-- Stubbed network environment: what each provider would answer if its
single network exchange were performed. -/
structure ProviderWorld where
  stability_events : List GenerationEvent
  openai_outcome : OpenAIOutcome
  clipdrop_outcome : ClipdropOutcome
deriving Repr, DecidableEq

/-- Error taxonomy of the image-provider abstraction. `MissingAPIKeyError`
(source lines 68-73) carries the platform name; `InvalidImagePlatformError`
(source lines 75-81) carries the given platform and the valid platforms. -/
inductive ImageGenFailure where
  | missingAPIKeyError (api_platform : String)
  | invalidImagePlatformError (given_platform : String) (valid_platforms : List String)
  | contentFilteredError
  | unexpectedProviderResponseError
  | providerAuthError
  | providerQuotaError
  | providerRequestError (status : Option Nat) (body : String)
deriving Repr, DecidableEq

/-- Observable side effects of one `generate_image` call, recorded in
order: credential lookups and network exchanges (a streaming session
counts as one exchange). -/
inductive CallAction where
  | credentialLookup
  | networkCall
deriving Repr, DecidableEq

/-- Recognized image platforms (source line 43 help text: options are
'openai', 'stability', 'clipdrop'). -/
def valid_image_platforms : List String := ["openai", "stability", "clipdrop"]

/-- Credential selected for a platform from the credentials bundle. -/
def lookup_key (platform : String) (keys : ApiKeysTupleClass) : Option String :=
  if platform = "openai" then keys.openai_key
  else if platform = "stability" then keys.stability_key
  else if platform = "clipdrop" then keys.clipdrop_key
  else none

/-- Base64-style encoding of a byte list into six-bit values (the
encode half of the provider payload encode/decode step). -/
def b64encode : List Nat → List Nat
  | [] => []
  | [b0] => [b0 / 4, b0 % 4 * 16]
  | [b0, b1] => [b0 / 4, b0 % 4 * 16 + b1 / 16, b1 % 16 * 4]
  | b0 :: b1 :: b2 :: rest =>
    b0 / 4 :: (b0 % 4 * 16 + b1 / 16) :: (b1 % 16 * 4 + b2 / 64) :: b2 % 64 ::
      b64encode rest

/-- Base64-style decoding of six-bit values back into bytes (the decode
half of the provider payload encode/decode step). -/
def b64decode : List Nat → List Nat
  | [] => []
  | [_] => []
  | [c0, c1] => [c0 * 4 + c1 / 16]
  | [c0, c1, c2] => [c0 * 4 + c1 / 16, c1 % 16 * 16 + c2 / 4]
  | c0 :: c1 :: c2 :: c3 :: rest =>
    (c0 * 4 + c1 / 16) :: (c1 % 16 * 16 + c2 / 4) :: (c2 % 4 * 64 + c3) ::
      b64decode rest

/-- Modelled from the spec: consuming the diffusion provider's finite event
sequence to its first terminal event: an artifact returns its embedded
payload decoded; a content-filter rejection fails with
`ContentFilteredError`; any other or missing event fails with
`UnexpectedProviderResponseError`. -/
def consume_stability_events : List GenerationEvent → Except ImageGenFailure (List Nat)
  | .artifact b :: _ => .ok (b64decode b)
  | .filtered :: _ => .error .contentFilteredError
  | .other :: _ => .error .unexpectedProviderResponseError
  | [] => .error .unexpectedProviderResponseError

/-- Modelled from the spec: the image-provider abstraction
`generate_image(prompt, credentials, options)` is absent from the
truncated source. Per the spec it first rejects an unrecognized platform
with `InvalidImagePlatformError` (before any credential lookup), then
fails fast with `MissingAPIKeyError` when the selected platform's
credential is absent or empty (before any network call), and otherwise
performs exactly one network exchange with the selected backend, with no
retry inside the abstraction. The returned trace records the credential
lookups and network exchanges performed, in order. -/
def generate_image (platform : String) (keys : ApiKeysTupleClass)
    (world : ProviderWorld) :
    Except ImageGenFailure (List Nat) × List CallAction :=
  if platform ∈ valid_image_platforms then
    match lookup_key platform keys with
    | none => (.error (.missingAPIKeyError platform), [.credentialLookup])
    | some k =>
      if k = "" then (.error (.missingAPIKeyError platform), [.credentialLookup])
      else if platform = "stability" then
        (consume_stability_events world.stability_events,
         [.credentialLookup, .networkCall])
      else if platform = "openai" then
        (match world.openai_outcome with
         | .success b => .ok (b64decode b)
         | .authFailure => .error .providerAuthError
         | .quotaFailure => .error .providerQuotaError
         | .requestFailure => .error (.providerRequestError none ""),
         [.credentialLookup, .networkCall])
      else
        (match world.clipdrop_outcome with
         | .ok body => .ok body
         | .httpFailure status body => .error (.providerRequestError (some status) body),
         [.credentialLookup, .networkCall])
  else
    (.error (.invalidImagePlatformError platform valid_image_platforms), [])

/-- Default of the `--imageplatform` command-line flag (source line 43):
when the flag is absent, the platform is 'clipdrop'. -/
def args_imageplatform (flag : Option String) : String :=
  flag.getD "clipdrop"

lemma splitLines_ne_nil (s : List Char) : splitLines s ≠ [] := by
  cases s with
  | nil => simp [splitLines]
  | cons c cs =>
    simp only [splitLines]
    cases splitLines cs with
    | nil => simp
    | cons l ls => by_cases hc : c = '\n' <;> simp [hc]

lemma splitLines_no_newline (s : List Char) (h : '\n' ∉ s) : splitLines s = [s] := by
  induction s with
  | nil => rfl
  | cons c cs ih =>
    have hc : c ≠ '\n' := fun he => h (he ▸ List.mem_cons_self c cs)
    have hcs : '\n' ∉ cs := fun he => h (List.mem_cons_of_mem c he)
    simp only [splitLines, ih hcs]
    simp [hc]

lemma splitLines_cons (c : Char) (cs : List Char) :
    splitLines (c :: cs) =
      if c = '\n' then [] :: splitLines cs
      else (c :: (splitLines cs).headD []) :: (splitLines cs).tail := by
  cases hs : splitLines cs with
  | nil => exact absurd hs (splitLines_ne_nil cs)
  | cons m ms => by_cases hc : c = '\n' <;> simp [splitLines, hs, hc]

lemma splitLines_append (a b : List Char) :
    splitLines (a ++ '\n' :: b) = splitLines a ++ splitLines b := by
  induction a with
  | nil =>
    rw [List.nil_append, splitLines_cons]
    simp [splitLines]
  | cons c cs ih =>
    rw [List.cons_append, splitLines_cons, splitLines_cons, ih]
    by_cases hc : c = '\n'
    · simp [hc]
    · simp only [if_neg hc]
      cases hs : splitLines cs with
      | nil => exact absurd hs (splitLines_ne_nil cs)
      | cons m ms => simp

lemma splitLines_headD_pref (s : List Char) : (splitLines s).headD [] <+: s := by
  induction s with
  | nil => simp [splitLines]
  | cons c cs ih =>
    rw [splitLines_cons]
    by_cases hc : c = '\n'
    · simp [hc]
    · simp only [if_neg hc, List.headD_cons]
      exact List.cons_prefix_cons.mpr ⟨rfl, ih⟩

lemma mem_splitLines {l : List Char} : ∀ {s : List Char}, l ∈ splitLines s → l <:+: s := by
  intro s
  induction s with
  | nil =>
    intro h
    simp [splitLines] at h
    simp [h]
  | cons c cs ih =>
    intro hmem
    rw [splitLines_cons] at hmem
    by_cases hc : c = '\n'
    · rw [if_pos hc] at hmem
      rcases List.mem_cons.mp hmem with h1 | h1
      · simp [h1]
      · exact List.infix_cons (ih h1)
    · rw [if_neg hc] at hmem
      rcases List.mem_cons.mp hmem with h1 | h1
      · rw [h1]
        exact (List.cons_prefix_cons.mpr ⟨rfl, splitLines_headD_pref cs⟩).isInfix
      · exact List.infix_cons (ih (List.mem_of_mem_tail h1))

lemma dropEnds_sub (p : Char → Bool) (s : List Char) : dropEnds p s <:+: s := by
  have h1 : s.dropWhile p <:+ s := List.dropWhile_suffix p
  have h2 : (s.dropWhile p).reverse.dropWhile p <:+ (s.dropWhile p).reverse :=
    List.dropWhile_suffix p
  have h3 : ((s.dropWhile p).reverse.dropWhile p).reverse <+: s.dropWhile p := by
    apply List.reverse_suffix.mp
    simpa using h2
  exact h3.isInfix.trans h1.isInfix

lemma cleanValue_sub (s : List Char) : cleanValue s <:+: s :=
  (dropEnds_sub isQuoteChar (trimSpaces s)).trans (dropEnds_sub isSpaceChar s)

lemma value_sub (lab l : List Char) :
    cleanValue ((trimSpaces l).drop lab.length) <:+: l :=
  (cleanValue_sub _).trans
    (((List.drop_suffix lab.length (trimSpaces l)).isInfix).trans (dropEnds_sub isSpaceChar l))

lemma extract_label_eq_none (lab : List Char) (ls : List (List Char))
    (h : ∀ l ∈ ls, startsWithCI (trimSpaces l) lab = false) :
    extract_label lab ls = none := by
  induction ls with
  | nil => rfl
  | cons l rest ih =>
    have hl := h l (List.mem_cons_self l rest)
    simp only [extract_label, hl]
    exact ih fun x hx => h x (List.mem_cons_of_mem l hx)

lemma extract_label_eq_some {lab v : List Char} :
    ∀ {ls : List (List Char)}, extract_label lab ls = some v →
      ∃ l ∈ ls, startsWithCI (trimSpaces l) lab = true ∧
        v = cleanValue ((trimSpaces l).drop lab.length) := by
  intro ls
  induction ls with
  | nil => intro h; exact absurd h (by simp [extract_label])
  | cons l rest ih =>
    intro h
    by_cases hl : startsWithCI (trimSpaces l) lab = true
    · rw [extract_label, if_pos hl] at h
      exact ⟨l, List.mem_cons_self l rest, hl, (Option.some.injEq .. ▸ h).symm⟩
    · rw [extract_label, if_neg hl] at h
      obtain ⟨x, hx, hsw, hv⟩ := ih h
      exact ⟨x, List.mem_cons_of_mem l hx, hsw, hv⟩

lemma extract_label_first (lab : List Char) :
    ∀ (pre : List (List Char)) (l : List Char) (post : List (List Char)),
      (∀ x ∈ pre, startsWithCI (trimSpaces x) lab = false) →
      startsWithCI (trimSpaces l) lab = true →
      extract_label lab (pre ++ l :: post) =
        some (cleanValue ((trimSpaces l).drop lab.length)) := by
  intro pre
  induction pre with
  | nil =>
    intro l post _ hl
    simp [extract_label, hl]
  | cons x xs ih =>
    intro l post hpre hl
    have hx := hpre x (List.mem_cons_self x xs)
    simp only [List.cons_append, extract_label, hx, Bool.false_eq_true, if_false]
    exact ih l post (fun y hy => hpre y (List.mem_cons_of_mem x hy)) hl

lemma parse_ok_inv {raw : List Char} {r : MemeResult} (h : parse raw = .ok r) :
    extract_label meme_text_label (splitLines raw) = some r.caption ∧
    extract_label image_prompt_label (splitLines raw) = some r.image_prompt ∧
    r.caption ≠ [] ∧ r.image_prompt ≠ [] := by
  unfold parse at h
  cases hc : extract_label meme_text_label (splitLines raw) with
  | none =>
    rw [hc] at h
    cases hp : extract_label image_prompt_label (splitLines raw) <;> rw [hp] at h <;> simp at h
  | some c =>
    cases hp : extract_label image_prompt_label (splitLines raw) with
    | none => rw [hc, hp] at h; simp at h
    | some p =>
      rw [hc, hp] at h
      by_cases he : (c.isEmpty || p.isEmpty) = true
      · simp [he] at h
      · simp only [he, if_false, Bool.false_eq_true, reduceIte, Except.ok.injEq] at h
        subst h
        simp only [Bool.or_eq_true, not_or, List.isEmpty_iff] at he
        exact ⟨rfl, rfl, he.1, he.2⟩

lemma meme_label_head : lowerChars meme_text_label = 'm' :: lowerChars "eme Text: ".data := rfl

lemma image_label_head : lowerChars image_prompt_label = 'i' :: lowerChars "mage Prompt: ".data := rfl

lemma startsWithCI_head {t lab : List Char} {c : Char} {cs ds : List Char} {d : Char}
    (ht : t = c :: cs) (hl : lowerChars lab = d :: ds)
    (h : startsWithCI t lab = true) : Char.toLower c = d := by
  subst ht
  have h' : lowerChars ((c :: cs).take lab.length) = lowerChars lab := by
    simpa [startsWithCI] using h
  have hlen : lab.length ≠ 0 := by
    intro h0
    rw [h0] at h'
    rw [← h'] at hl
    simp [lowerChars] at hl
  obtain ⟨n, hn⟩ : ∃ n, lab.length = n + 1 := ⟨lab.length - 1, by omega⟩
  rw [hn] at h'
  rw [List.take_succ_cons] at h'
  rw [hl] at h'
  simpa [lowerChars] using congrArg (fun l => l.headD ' ') h'

lemma meme_not_image {t : List Char} (hm : startsWithCI t meme_text_label = true) :
    startsWithCI t image_prompt_label = false := by
  cases t with
  | nil => exact absurd hm (by decide)
  | cons c cs =>
    by_contra hcon
    rw [Bool.not_eq_false] at hcon
    have h1 := startsWithCI_head rfl meme_label_head hm
    have h2 := startsWithCI_head rfl image_label_head hcon
    rw [h1] at h2
    exact absurd h2 (by decide)

lemma image_not_meme {t : List Char} (hi : startsWithCI t image_prompt_label = true) :
    startsWithCI t meme_text_label = false := by
  cases t with
  | nil => exact absurd hi (by decide)
  | cons c cs =>
    by_contra hcon
    rw [Bool.not_eq_false] at hcon
    have h1 := startsWithCI_head rfl image_label_head hi
    have h2 := startsWithCI_head rfl meme_label_head hcon
    rw [h1] at h2
    exact absurd h2 (by decide)

lemma b64_roundtrip : ∀ bs : List Nat, (∀ b ∈ bs, b < 256) → b64decode (b64encode bs) = bs := by
  intro bs
  induction bs using b64encode.induct with
  | case1 =>
    intro _
    rfl
  | case2 b0 =>
    intro h
    have h0 : b0 < 256 := h b0 (by simp)
    simp only [b64encode, b64decode, List.cons.injEq, and_true]
    omega
  | case3 b0 b1 =>
    intro h
    have h0 : b0 < 256 := h b0 (by simp)
    have h1 : b1 < 256 := h b1 (by simp)
    simp only [b64encode, b64decode, List.cons.injEq, and_true]
    constructor <;> omega
  | case4 b0 b1 b2 rest ih =>
    intro h
    have h0 : b0 < 256 := h b0 (by simp)
    have h1 : b1 < 256 := h b1 (by simp)
    have h2 : b2 < 256 := h b2 (by simp)
    have ih' := ih fun b hb => h b (by simp [hb])
    simp only [b64encode, b64decode, ih', List.cons.injEq, and_true]
    refine ⟨?_, ?_, ?_⟩ <;> omega

/-- C1: for every raw chat reply in which the caption label or the
image-prompt label (or both) is entirely absent, `parse` fails with a
`ResponseFormatError` that carries the raw reply, and `parse` never
returns a result in which either the caption or the image_prompt is empty
or missing. -/
theorem parse_missing_label_fails :
    (∀ raw_reply : List Char,
      ((∀ l ∈ splitLines raw_reply, startsWithCI (trimSpaces l) meme_text_label = false) ∨
       (∀ l ∈ splitLines raw_reply, startsWithCI (trimSpaces l) image_prompt_label = false)) →
      parse raw_reply = .error (.responseFormatError raw_reply)) ∧
    (∀ (raw_reply : List Char) (r : MemeResult), parse raw_reply = .ok r →
      r.caption ≠ [] ∧ r.image_prompt ≠ []) := by
  constructor
  · intro raw h
    unfold parse
    rcases h with h | h
    · rw [extract_label_eq_none _ _ h]
    · rw [extract_label_eq_none _ _ h]
      cases extract_label meme_text_label (splitLines raw) <;> rfl
  · intro raw r h
    exact ⟨(parse_ok_inv h).2.2.1, (parse_ok_inv h).2.2.2⟩

/-- Witness for C1: the reply "hello" contains neither label, and `parse`
fails on it with a `ResponseFormatError` carrying the raw reply. -/
theorem parse_missing_label_fails_witness :
    parse "hello".data = .error (.responseFormatError "hello".data) :=
  parse_missing_label_fails.1 "hello".data (Or.inl (by decide))

/-- C4: applied to the exact reply "Meme Text: \"When the code finally
compiles\"\nImage Prompt: a programmer celebrating", `parse` returns
caption "When the code finally compiles" and image_prompt "a programmer
celebrating", with labels and surrounding quotation marks stripped. -/
theorem parse_example_exact :
    parse ("Meme Text: \"When the code finally compiles\"\nImage Prompt: a programmer celebrating").data =
      .ok ⟨"When the code finally compiles".data, "a programmer celebrating".data⟩ := by
  decide

/-- C5: for well-formed two-line replies, `parse` returns the same
(caption, image_prompt) pair regardless of the order of the caption line
and the image-prompt line: each field is located by its label, not by
line position. -/
theorem parse_label_order_irrelevant (l1 l2 : List Char)
    (h1 : '\n' ∉ l1) (h2 : '\n' ∉ l2)
    (hm : startsWithCI (trimSpaces l1) meme_text_label = true)
    (hi : startsWithCI (trimSpaces l2) image_prompt_label = true)
    (hc : cleanValue ((trimSpaces l1).drop meme_text_label.length) ≠ [])
    (hp : cleanValue ((trimSpaces l2).drop image_prompt_label.length) ≠ []) :
    parse (l1 ++ '\n' :: l2) =
      .ok ⟨cleanValue ((trimSpaces l1).drop meme_text_label.length),
           cleanValue ((trimSpaces l2).drop image_prompt_label.length)⟩ ∧
    parse (l2 ++ '\n' :: l1) =
      .ok ⟨cleanValue ((trimSpaces l1).drop meme_text_label.length),
           cleanValue ((trimSpaces l2).drop image_prompt_label.length)⟩ := by
  have s12 : splitLines (l1 ++ '\n' :: l2) = [l1, l2] := by
    rw [splitLines_append, splitLines_no_newline _ h1, splitLines_no_newline _ h2]
    rfl
  have s21 : splitLines (l2 ++ '\n' :: l1) = [l2, l1] := by
    rw [splitLines_append, splitLines_no_newline _ h1, splitLines_no_newline _ h2]
    rfl
  have em12 : extract_label meme_text_label [l1, l2] =
      some (cleanValue ((trimSpaces l1).drop meme_text_label.length)) := by
    simp [extract_label, hm]
  have ei12 : extract_label image_prompt_label [l1, l2] =
      some (cleanValue ((trimSpaces l2).drop image_prompt_label.length)) := by
    simp [extract_label, meme_not_image hm, hi]
  have em21 : extract_label meme_text_label [l2, l1] =
      some (cleanValue ((trimSpaces l1).drop meme_text_label.length)) := by
    simp [extract_label, image_not_meme hi, hm]
  have ei21 : extract_label image_prompt_label [l2, l1] =
      some (cleanValue ((trimSpaces l2).drop image_prompt_label.length)) := by
    simp [extract_label, hi]
  have hce : (cleanValue ((trimSpaces l1).drop meme_text_label.length)).isEmpty = false := by
    simpa [List.isEmpty_iff] using hc
  have hpe : (cleanValue ((trimSpaces l2).drop image_prompt_label.length)).isEmpty = false := by
    simpa [List.isEmpty_iff] using hp
  constructor
  · unfold parse
    rw [s12, em12, ei12]
    simp [hce, hpe]
  · unfold parse
    rw [s21, em21, ei21]
    simp [hce, hpe]

/-- Witness for C5: the two-line reply parses to the same pair with the
caption line and the image-prompt line in either order. -/
theorem parse_label_order_irrelevant_witness :
    parse ("Meme Text: hi".data ++ '\n' :: "Image Prompt: yo".data) =
      .ok ⟨"hi".data, "yo".data⟩ ∧
    parse ("Image Prompt: yo".data ++ '\n' :: "Meme Text: hi".data) =
      .ok ⟨"hi".data, "yo".data⟩ := by
  have h := parse_label_order_irrelevant "Meme Text: hi".data "Image Prompt: yo".data
    (by decide) (by decide) (by decide) (by decide) (by decide) (by decide)
  have e1 : cleanValue ((trimSpaces "Meme Text: hi".data).drop meme_text_label.length) =
      "hi".data := by decide
  have e2 : cleanValue ((trimSpaces "Image Prompt: yo".data).drop image_prompt_label.length) =
      "yo".data := by decide
  rw [e1, e2] at h
  exact h

/-- C6: for every parsed reply, each returned field is the value following
the first occurrence of its label: whenever the reply's lines decompose as
earlier lines that do not match the label, then a matching line, then
arbitrary later lines (which may repeat the label), the returned caption
or image_prompt equals the first matching line's cleaned value, so later
occurrences do not affect the result. -/
theorem parse_first_occurrence_wins (raw_reply : List Char) (r : MemeResult)
    (h : parse raw_reply = .ok r) :
    (∀ (pre : List (List Char)) (l : List Char) (post : List (List Char)),
      splitLines raw_reply = pre ++ l :: post →
      (∀ x ∈ pre, startsWithCI (trimSpaces x) meme_text_label = false) →
      startsWithCI (trimSpaces l) meme_text_label = true →
      r.caption = cleanValue ((trimSpaces l).drop meme_text_label.length)) ∧
    (∀ (pre : List (List Char)) (l : List Char) (post : List (List Char)),
      splitLines raw_reply = pre ++ l :: post →
      (∀ x ∈ pre, startsWithCI (trimSpaces x) image_prompt_label = false) →
      startsWithCI (trimSpaces l) image_prompt_label = true →
      r.image_prompt = cleanValue ((trimSpaces l).drop image_prompt_label.length)) := by
  obtain ⟨hm, hi, _, _⟩ := parse_ok_inv h
  constructor
  · intro pre l post hsplit hpre hl
    rw [hsplit, extract_label_first meme_text_label pre l post hpre hl] at hm
    exact (Option.some.inj hm).symm
  · intro pre l post hsplit hpre hl
    rw [hsplit, extract_label_first image_prompt_label pre l post hpre hl] at hi
    exact (Option.some.inj hi).symm

/-- Witness for C6: in the reply "Meme Text: a\nMeme Text: c\nImage
Prompt: b" the caption label appears twice with the duplicate interleaved
before the image line; the parsed caption is the first occurrence's value
"a" and the image_prompt is "b". -/
theorem parse_first_occurrence_wins_witness :
    ("a".data : List Char) =
      cleanValue ((trimSpaces "Meme Text: a".data).drop meme_text_label.length) ∧
    ("b".data : List Char) =
      cleanValue ((trimSpaces "Image Prompt: b".data).drop image_prompt_label.length) := by
  have h := parse_first_occurrence_wins ("Meme Text: a\nMeme Text: c\nImage Prompt: b").data
    ⟨"a".data, "b".data⟩ (by decide)
  exact ⟨h.1 [] "Meme Text: a".data ["Meme Text: c".data, "Image Prompt: b".data]
      (by decide) (by decide) (by decide),
    h.2 ["Meme Text: a".data, "Meme Text: c".data] "Image Prompt: b".data []
      (by decide) (by decide) (by decide)⟩

/-- C7: every caption and image_prompt returned by `parse` is the captured
label value transformed only by whitespace/quotation-mark trimming, and
therefore occurs verbatim (case, punctuation and length preserved) as a
contiguous substring of the raw reply. -/
theorem parse_preserves_text_verbatim (raw_reply : List Char) (r : MemeResult)
    (h : parse raw_reply = .ok r) :
    ((∃ l ∈ splitLines raw_reply, startsWithCI (trimSpaces l) meme_text_label = true ∧
        r.caption = cleanValue ((trimSpaces l).drop meme_text_label.length)) ∧
     (∃ l ∈ splitLines raw_reply, startsWithCI (trimSpaces l) image_prompt_label = true ∧
        r.image_prompt = cleanValue ((trimSpaces l).drop image_prompt_label.length))) ∧
    (r.caption <:+: raw_reply ∧ r.image_prompt <:+: raw_reply) := by
  obtain ⟨hm, hi, _, _⟩ := parse_ok_inv h
  obtain ⟨lm, hlm, hswm, hvm⟩ := extract_label_eq_some hm
  obtain ⟨li, hli, hswi, hvi⟩ := extract_label_eq_some hi
  refine ⟨⟨⟨lm, hlm, hswm, hvm⟩, ⟨li, hli, hswi, hvi⟩⟩, ?_, ?_⟩
  · rw [hvm]
    exact (value_sub meme_text_label lm).trans (mem_splitLines hlm)
  · rw [hvi]
    exact (value_sub image_prompt_label li).trans (mem_splitLines hli)

/-- Witness for C7: on a concrete reply, the parsed caption and image
prompt come from the labelled lines and occur verbatim in the reply. -/
theorem parse_preserves_text_verbatim_witness :
    ((∃ l ∈ splitLines ("Meme Text: x1\nImage Prompt: y2").data,
        startsWithCI (trimSpaces l) meme_text_label = true ∧
        "x1".data = cleanValue ((trimSpaces l).drop meme_text_label.length)) ∧
     (∃ l ∈ splitLines ("Meme Text: x1\nImage Prompt: y2").data,
        startsWithCI (trimSpaces l) image_prompt_label = true ∧
        "y2".data = cleanValue ((trimSpaces l).drop image_prompt_label.length))) ∧
    ("x1".data <:+: ("Meme Text: x1\nImage Prompt: y2").data ∧
     "y2".data <:+: ("Meme Text: x1\nImage Prompt: y2").data) :=
  parse_preserves_text_verbatim ("Meme Text: x1\nImage Prompt: y2").data
    ⟨"x1".data, "y2".data⟩ (by decide)

/-- C2: for every provider name outside the recognized set of three,
`generate_image` fails with `InvalidImagePlatformError` whose
valid_platforms field lists exactly the three valid provider names, and
the failure occurs before any credential lookup (the trace is empty). -/
theorem generate_image_invalid_platform (platform : String)
    (keys : ApiKeysTupleClass) (world : ProviderWorld)
    (hv : platform ∉ valid_image_platforms) :
    generate_image platform keys world =
      (.error (.invalidImagePlatformError platform valid_image_platforms), []) ∧
    valid_image_platforms = ["openai", "stability", "clipdrop"] ∧
    .credentialLookup ∉ (generate_image platform keys world).2 := by
  have exp : generate_image platform keys world =
      (.error (.invalidImagePlatformError platform valid_image_platforms), []) := by
    unfold generate_image
    rw [if_neg hv]
  exact ⟨exp, rfl, by rw [exp]; simp⟩

/-- Witness for C2: the unrecognized platform name "dalle" fails with
`InvalidImagePlatformError` listing the three valid names, before any
credential lookup. -/
theorem generate_image_invalid_platform_witness :
    generate_image "dalle" ⟨none, none, none⟩ ⟨[], .requestFailure, .ok []⟩ =
      (.error (.invalidImagePlatformError "dalle" valid_image_platforms), []) ∧
    valid_image_platforms = ["openai", "stability", "clipdrop"] ∧
    .credentialLookup ∉
      (generate_image "dalle" ⟨none, none, none⟩ ⟨[], .requestFailure, .ok []⟩).2 :=
  generate_image_invalid_platform "dalle" ⟨none, none, none⟩
    ⟨[], .requestFailure, .ok []⟩ (by decide)

/-- C3: for each of the three provider variants, an absent or empty
credential for the selected provider makes `generate_image` fail with
`MissingAPIKeyError` and perform zero network calls. -/
theorem generate_image_missing_key (platform : String)
    (keys : ApiKeysTupleClass) (world : ProviderWorld)
    (hv : platform ∈ valid_image_platforms)
    (hk : lookup_key platform keys = none ∨ lookup_key platform keys = some "") :
    generate_image platform keys world =
      (.error (.missingAPIKeyError platform), [.credentialLookup]) ∧
    .networkCall ∉ (generate_image platform keys world).2 := by
  have exp : generate_image platform keys world =
      (.error (.missingAPIKeyError platform), [.credentialLookup]) := by
    unfold generate_image
    rw [if_pos hv]
    rcases hk with hk | hk
    · rw [hk]
    · rw [hk]
      simp
  exact ⟨exp, by rw [exp]; simp⟩

/-- Witness for C3: selecting "clipdrop" with no ClipDrop key configured
fails with `MissingAPIKeyError` for "clipdrop" and no network call. -/
theorem generate_image_missing_key_witness :
    generate_image "clipdrop" ⟨some "ok-key", none, some "sk"⟩
        ⟨[], .requestFailure, .ok [1, 2]⟩ =
      (.error (.missingAPIKeyError "clipdrop"), [.credentialLookup]) ∧
    .networkCall ∉
      (generate_image "clipdrop" ⟨some "ok-key", none, some "sk"⟩
        ⟨[], .requestFailure, .ok [1, 2]⟩).2 :=
  generate_image_missing_key "clipdrop" ⟨some "ok-key", none, some "sk"⟩
    ⟨[], .requestFailure, .ok [1, 2]⟩ (by decide) (Or.inl (by decide))

/-- C8: with a configured stability credential, a diffusion-provider
session whose event sequence reports a content-filtered event makes
`generate_image` fail with `ContentFilteredError`, returning no image
bytes and opening no second session (exactly one network exchange in the
trace); a session reporting an artifact event returns the embedded
decoded image bytes unmodified. -/
theorem generate_image_stability_events (keys : ApiKeysTupleClass)
    (world : ProviderWorld) (k : String)
    (hk : keys.stability_key = some k) (hk0 : k ≠ "") :
    (∀ rest, world.stability_events = .filtered :: rest →
      generate_image "stability" keys world =
        (.error .contentFilteredError, [.credentialLookup, .networkCall])) ∧
    (∀ bs rest, (∀ b ∈ bs, b < 256) →
      world.stability_events = .artifact (b64encode bs) :: rest →
      generate_image "stability" keys world =
        (.ok bs, [.credentialLookup, .networkCall])) := by
  have hlk : lookup_key "stability" keys = some k := by
    simp [lookup_key, hk]
  constructor
  · intro rest hw
    unfold generate_image
    rw [if_pos (by decide), hlk]
    simp only [if_neg hk0, if_pos rfl]
    rw [hw]
    rfl
  · intro bs rest hb hw
    unfold generate_image
    rw [if_pos (by decide), hlk]
    simp only [if_neg hk0, if_pos rfl]
    rw [hw]
    simp [consume_stability_events, b64_roundtrip bs hb]

/-- Witness for C8: a filtered session fails with `ContentFilteredError`
and one network exchange; an artifact session round-trips the encoded
bytes [7, 200, 31] unmodified. -/
theorem generate_image_stability_events_witness :
    generate_image "stability" ⟨none, none, some "sk"⟩
        ⟨[.filtered], .requestFailure, .ok []⟩ =
      (.error .contentFilteredError, [.credentialLookup, .networkCall]) ∧
    generate_image "stability" ⟨none, none, some "sk"⟩
        ⟨[.artifact (b64encode [7, 200, 31])], .requestFailure, .ok []⟩ =
      (.ok [7, 200, 31], [.credentialLookup, .networkCall]) :=
  ⟨(generate_image_stability_events ⟨none, none, some "sk"⟩
      ⟨[.filtered], .requestFailure, .ok []⟩ "sk" rfl (by decide)).1 [] rfl,
   (generate_image_stability_events ⟨none, none, some "sk"⟩
      ⟨[.artifact (b64encode [7, 200, 31])], .requestFailure, .ok []⟩ "sk" rfl
      (by decide)).2 [7, 200, 31] [] (by decide) rfl⟩

/-- C9: for every pair of instruction arguments, the system prompt
returned by `construct_system_prompt` contains both literal label strings
"Meme Text: " and "Image Prompt: ", the same label constants the Response
Parser searches for. -/
theorem system_prompt_contains_labels
    (basic_instructions image_special_instructions : List Char) :
    meme_text_label <:+: construct_system_prompt basic_instructions image_special_instructions ∧
    image_prompt_label <:+: construct_system_prompt basic_instructions image_special_instructions := by
  have h1 : meme_text_label <:+: format_instructions := by decide
  have h2 : image_prompt_label <:+: format_instructions := by decide
  have hp : format_instructions <+: construct_system_prompt basic_instructions image_special_instructions := by
    unfold construct_system_prompt
    simp only [List.append_assoc]
    exact List.prefix_append _ _
  exact ⟨h1.trans hp.isInfix, h2.trans hp.isInfix⟩

/-- C10: when no image-platform argument is supplied, provider selection
defaults to "clipdrop"; the default is among the valid platforms and is
not rejected as a configuration error by `generate_image`. -/
theorem default_imageplatform :
    args_imageplatform none = "clipdrop" ∧
    "clipdrop" ∈ valid_image_platforms ∧
    ∀ (keys : ApiKeysTupleClass) (world : ProviderWorld) (g : String) (vs : List String),
      (generate_image (args_imageplatform none) keys world).1 ≠
        .error (.invalidImagePlatformError g vs) := by
  refine ⟨rfl, by decide, ?_⟩
  intro keys world g vs
  unfold generate_image args_imageplatform
  simp only [Option.getD_none]
  rw [if_pos (by decide)]
  cases lookup_key "clipdrop" keys with
  | none => simp
  | some k =>
    by_cases hk : k = ""
    · simp [hk]
    · simp only [if_neg hk]
      rw [if_neg (by decide), if_neg (by decide)]
      cases world.clipdrop_outcome <;> simp
